import Mathlib

/-!
Shallow embedding of the terminal falling-block game in `src/game/src/main.rs`.

The board is a fixed `HEIGHT × WIDTH` grid of cells (`grid[row][col]` in the
source becomes `grid : Fin HEIGHT → Fin WIDTH → Cell`); a tetromino is a 4×4
mask of `u8` values (here `Nat`); anchor positions are signed (`isize` becomes
`Int`).  Imperative loops over the mask become folds over the index list, and
mutation of the grid becomes functional update, so every operation is a pure
Lean function mirroring the corresponding Rust method.
-/

abbrev WIDTH : Nat := 10
abbrev HEIGHT : Nat := 20

inductive Cell where
  | Empty
  | Filled
deriving DecidableEq

abbrev Shape := Fin 4 → Fin 4 → Nat

structure Board where
  grid : Fin HEIGHT → Fin WIDTH → Cell

structure Tetromino where
  shape : Shape

/-- Rust `Board::new`: all cells `Empty`. -/
def Board.new : Board := ⟨fun _ _ => Cell.Empty⟩

/-- The list of mask indices `(dy, dx)` traversed by the nested
`for (dy, row) { for (dx, cell) { .. } }` loops in the source. -/
def maskIdx : List (Fin 4 × Fin 4) :=
  (List.finRange 4).flatMap fun dy => (List.finRange 4).map fun dx => (dy, dx)

/-- Rust `Board::check_collision`: for every occupied mask cell, collide when the
absolute coordinate `(x + dx, y + dy)` is out of bounds or the grid cell there
is already `Filled`. -/
def Board.check_collision (b : Board) (t : Tetromino) (x y : Int) : Bool :=
  (List.finRange 4).any fun dy =>
    (List.finRange 4).any fun dx =>
      t.shape dy dx == 1 &&
        (let nx : Int := x + (dx.val : Int)
         let ny : Int := y + (dy.val : Int)
         if h : nx < 0 ∨ (WIDTH : Int) ≤ nx ∨ ny < 0 ∨ (HEIGHT : Int) ≤ ny then
           true
         else
           decide (b.grid ⟨ny.toNat, by omega⟩ ⟨nx.toNat, by omega⟩ = Cell.Filled))

/-- One iteration of the body of `Board::fix_tetromino`: if the mask cell `p`
is occupied and its absolute coordinate is in bounds, set that grid cell to
`Filled`; otherwise leave the board alone. -/
def fixStep (t : Tetromino) (x y : Int) (b : Board) (p : Fin 4 × Fin 4) : Board :=
  if t.shape p.1 p.2 = 1 then
    let nx : Int := x + (p.2.val : Int)
    let ny : Int := y + (p.1.val : Int)
    if 0 ≤ nx ∧ nx < (WIDTH : Int) ∧ 0 ≤ ny ∧ ny < (HEIGHT : Int) then
      ⟨fun r c => if r.val = ny.toNat ∧ c.val = nx.toNat then Cell.Filled else b.grid r c⟩
    else b
  else b

/-- Rust `Board::fix_tetromino`: the nested loops as a fold of `fixStep` over the
mask indices. -/
def Board.fix_tetromino (b : Board) (t : Tetromino) (x y : Int) : Board :=
  maskIdx.foldl (fixStep t x y) b

/-- Rust `Tetromino::occupies`: translate the board coordinate into mask-local
coordinates; `false` outside the 4×4 mask, otherwise test the mask cell. -/
def Tetromino.occupies (t : Tetromino) (x y : Int) (col row : Nat) : Bool :=
  let rel_x : Int := (col : Int) - x
  let rel_y : Int := (row : Int) - y
  if h : 0 ≤ rel_x ∧ rel_x < 4 ∧ 0 ≤ rel_y ∧ rel_y < 4 then
    t.shape ⟨rel_y.toNat, by omega⟩ ⟨rel_x.toNat, by omega⟩ == 1
  else
    false

/-- One write of the loop body of `Tetromino::rotate_right`:
`new_shape[x][3 - y] = self.shape[y][x]`, with `p = (y, x)`. -/
def rotStep (old : Shape) (acc : Shape) (p : Fin 4 × Fin 4) : Shape :=
  fun a b => if a.val = p.2.val ∧ b.val = 3 - p.1.val then old p.1 p.2 else acc a b

/-- Rust `Tetromino::rotate_right`: fill a zeroed 4×4 mask by the writes
`new_shape[x][3 - y] = self.shape[y][x]` over all `(y, x)`. -/
def Tetromino.rotate_right (t : Tetromino) : Tetromino :=
  ⟨maskIdx.foldl (rotStep t.shape) (fun _ _ => 0)⟩

/-- The seven canonical masks of `Tetromino::patterns`, in source order. -/
def shapeI : Shape := ![![0,0,0,0], ![1,1,1,1], ![0,0,0,0], ![0,0,0,0]]
def shapeO : Shape := ![![0,1,1,0], ![0,1,1,0], ![0,0,0,0], ![0,0,0,0]]
def shapeS : Shape := ![![0,1,1,0], ![1,1,0,0], ![0,0,0,0], ![0,0,0,0]]
def shapeZ : Shape := ![![1,1,0,0], ![0,1,1,0], ![0,0,0,0], ![0,0,0,0]]
def shapeJ : Shape := ![![1,0,0,0], ![1,1,1,0], ![0,0,0,0], ![0,0,0,0]]
def shapeL : Shape := ![![0,0,1,0], ![1,1,1,0], ![0,0,0,0], ![0,0,0,0]]
def shapeT : Shape := ![![0,1,0,0], ![1,1,1,0], ![0,0,0,0], ![0,0,0,0]]

/-- Rust `Tetromino::patterns` as a list of masks. -/
def Tetromino.patterns : List Shape :=
  [shapeI, shapeO, shapeS, shapeZ, shapeJ, shapeL, shapeT]

def tetI : Tetromino := ⟨shapeI⟩
def tetO : Tetromino := ⟨shapeO⟩

/-- Spec-side helper: is the absolute coordinate `(nx, ny)` inside
`[0,WIDTH) × [0,HEIGHT)`? -/
abbrev inBoundsInt (nx ny : Int) : Prop :=
  0 ≤ nx ∧ nx < (WIDTH : Int) ∧ 0 ≤ ny ∧ ny < (HEIGHT : Int)

/-- Spec-side helper: the board cell at an absolute coordinate is `Filled`
(`false` when the coordinate is not a board cell). -/
def Board.filledAt (b : Board) (nx ny : Int) : Bool :=
  if h : inBoundsInt nx ny then
    decide (b.grid ⟨ny.toNat, by omega⟩ ⟨nx.toNat, by omega⟩ = Cell.Filled)
  else false

theorem maskIdx_mem : ∀ p : Fin 4 × Fin 4, p ∈ maskIdx := by decide

theorem fixStep_grid (t : Tetromino) (x y : Int) (b : Board) (p : Fin 4 × Fin 4)
    (r : Fin HEIGHT) (c : Fin WIDTH) :
    (fixStep t x y b p).grid r c =
      if t.shape p.1 p.2 = 1 ∧ x + (p.2.val : Int) = (c.val : Int) ∧
          y + (p.1.val : Int) = (r.val : Int)
      then Cell.Filled else b.grid r c := by
  have hc : c.val < WIDTH := c.isLt
  have hr : r.val < HEIGHT := r.isLt
  simp only [fixStep]
  by_cases h1 : t.shape p.1 p.2 = 1
  · rw [if_pos h1]
    by_cases h2 : 0 ≤ x + (p.2.val : Int) ∧ x + (p.2.val : Int) < (WIDTH : Int) ∧
        0 ≤ y + (p.1.val : Int) ∧ y + (p.1.val : Int) < (HEIGHT : Int)
    · rw [if_pos h2]
      show (if r.val = (y + (p.1.val : Int)).toNat ∧ c.val = (x + (p.2.val : Int)).toNat
            then Cell.Filled else b.grid r c) = _
      by_cases h3 : x + (p.2.val : Int) = (c.val : Int) ∧ y + (p.1.val : Int) = (r.val : Int)
      · rw [if_pos (by omega), if_pos ⟨h1, h3.1, h3.2⟩]
      · rw [if_neg (by omega), if_neg (fun hc => h3 ⟨hc.2.1, hc.2.2⟩)]
    · rw [if_neg h2]
      by_cases h3 : x + (p.2.val : Int) = (c.val : Int) ∧ y + (p.1.val : Int) = (r.val : Int)
      · exact absurd (by omega : 0 ≤ x + (p.2.val : Int) ∧ x + (p.2.val : Int) < (WIDTH : Int) ∧
          0 ≤ y + (p.1.val : Int) ∧ y + (p.1.val : Int) < (HEIGHT : Int)) h2
      · rw [if_neg (fun hc => h3 ⟨hc.2.1, hc.2.2⟩)]
  · rw [if_neg h1, if_neg (fun hc => h1 hc.1)]

theorem foldl_fixStep_grid (t : Tetromino) (x y : Int) (l : List (Fin 4 × Fin 4))
    (b : Board) (r : Fin HEIGHT) (c : Fin WIDTH) :
    (l.foldl (fixStep t x y) b).grid r c =
      if ∃ p ∈ l, t.shape p.1 p.2 = 1 ∧ x + (p.2.val : Int) = (c.val : Int) ∧
          y + (p.1.val : Int) = (r.val : Int)
      then Cell.Filled else b.grid r c := by
  induction l generalizing b with
  | nil => simp
  | cons hd tl ih =>
    rw [List.foldl_cons, ih, fixStep_grid]
    by_cases h1 : t.shape hd.1 hd.2 = 1 ∧ x + (hd.2.val : Int) = (c.val : Int) ∧
        y + (hd.1.val : Int) = (r.val : Int)
    · by_cases h2 : ∃ p ∈ tl, t.shape p.1 p.2 = 1 ∧ x + (p.2.val : Int) = (c.val : Int) ∧
          y + (p.1.val : Int) = (r.val : Int) <;>
        simp [List.exists_mem_cons_iff, h1, h2]
    · by_cases h2 : ∃ p ∈ tl, t.shape p.1 p.2 = 1 ∧ x + (p.2.val : Int) = (c.val : Int) ∧
          y + (p.1.val : Int) = (r.val : Int) <;>
        simp [List.exists_mem_cons_iff, h1, h2]

/-- Pointwise characterisation of `fix_tetromino`: a cell becomes `Filled`
exactly when some occupied mask cell maps onto it; every other cell keeps its
previous value. -/
theorem fix_tetromino_grid (b : Board) (t : Tetromino) (x y : Int)
    (r : Fin HEIGHT) (c : Fin WIDTH) :
    (b.fix_tetromino t x y).grid r c =
      if ∃ dy : Fin 4, ∃ dx : Fin 4, t.shape dy dx = 1 ∧
          x + (dx.val : Int) = (c.val : Int) ∧ y + (dy.val : Int) = (r.val : Int)
      then Cell.Filled else b.grid r c := by
  rw [Board.fix_tetromino, foldl_fixStep_grid]
  simp only [maskIdx_mem, true_and, Prod.exists]

/-- Characterisation of `check_collision` as an existential over occupied mask
cells. -/
theorem check_collision_iff (b : Board) (t : Tetromino) (x y : Int) :
    b.check_collision t x y = true ↔
      ∃ dy : Fin 4, ∃ dx : Fin 4, t.shape dy dx = 1 ∧
        (¬ inBoundsInt (x + (dx.val : Int)) (y + (dy.val : Int)) ∨
          b.filledAt (x + (dx.val : Int)) (y + (dy.val : Int)) = true) := by
  rw [Board.check_collision]
  simp only [List.any_eq_true, List.mem_finRange, true_and, Bool.and_eq_true, beq_iff_eq]
  refine exists_congr fun dy => exists_congr fun dx => and_congr_right fun hs => ?_
  by_cases hb : x + (dx.val : Int) < 0 ∨ (WIDTH : Int) ≤ x + (dx.val : Int) ∨
      y + (dy.val : Int) < 0 ∨ (HEIGHT : Int) ≤ y + (dy.val : Int)
  · rw [dif_pos hb]
    simp only [inBoundsInt]
    constructor
    · intro _
      left
      omega
    · intro _
      trivial
  · rw [dif_neg hb]
    have hin : inBoundsInt (x + (dx.val : Int)) (y + (dy.val : Int)) := by
      simp only [inBoundsInt]
      omega
    rw [Board.filledAt, dif_pos hin]
    constructor
    · intro h
      exact Or.inr h
    · rintro (hni | h)
      · exact absurd hin hni
      · exact h

/-- Glyph of a placed cell in `Board::draw`. -/
def Cell.glyph : Cell → String
  | Cell.Empty => " ."
  | Cell.Filled => "[]"

/-- Rust `Board::draw`: the frame emitted each iteration — clear-screen escape, then
one line per row, the active piece's cells shown as `[]` via `occupies`,
otherwise the placed cell's glyph.  Pure: it only reads the board. -/
def Board.draw (b : Board) (t : Tetromino) (x y : Int) : String :=
  "\x1B[2J\x1B[1;1H" ++ String.join ((List.finRange HEIGHT).map fun row =>
    (String.join ((List.finRange WIDTH).map fun col =>
      if t.occupies x y col.val row.val then "[]" else (b.grid row col).glyph)) ++ "\n")

/-- The loop-local state of `main` that the gravity branch touches. -/
structure GameState where
  board : Board
  tetromino : Tetromino
  x : Int
  y : Int

/-- The gravity branch of `main` (`last_tick.elapsed() >= 400ms`): if the piece
cannot descend, fix it and respawn at the centre; otherwise fall one row.  The
next random piece is passed in as a parameter (`Tetromino::random` is the only
effectful choice in the branch). -/
def gravityTick (s : GameState) (next : Tetromino) : GameState :=
  if s.board.check_collision s.tetromino s.x (s.y + 1) then
    { board := s.board.fix_tetromino s.tetromino s.x s.y
      tetromino := next
      x := ((WIDTH / 2 - 2 : Nat) : Int)
      y := 0 }
  else
    { s with y := s.y + 1 }

/-- The three operations `main` ever performs on the board. -/
inductive BoardOp where
  | check (t : Tetromino) (x y : Int)
  | fix (t : Tetromino) (x y : Int)
  | draw (t : Tetromino) (x y : Int)

/-- Effect of one board operation on the grid: `check_collision` and `draw`
take `&self` in the source (read-only queries), so only `fix_tetromino`
produces a new grid. -/
def applyOp (b : Board) : BoardOp → Board
  | BoardOp.check _ _ _ => b
  | BoardOp.fix t x y => b.fix_tetromino t x y
  | BoardOp.draw _ _ _ => b

/-- Spec-side helper (from the spec's words, for the re-query in C6): after a
fix, every absolute cell covered by an occupied mask cell reads `Filled`. -/
def allCoveredFilled (b : Board) (t : Tetromino) (x y : Int) : Bool :=
  maskIdx.all fun p =>
    !(t.shape p.1 p.2 == 1) || b.filledAt (x + (p.2.val : Int)) (y + (p.1.val : Int))

/-- Spec-side helper (from the spec's words, for the re-query in C6): every
board cell not covered by the piece has the same value in `b1` as in `b0`. -/
def unchangedOutsidePiece (b0 b1 : Board) (t : Tetromino) (x y : Int) : Bool :=
  (List.finRange HEIGHT).all fun r =>
    (List.finRange WIDTH).all fun c =>
      t.occupies x y c.val r.val || decide (b1.grid r c = b0.grid r c)


/-- C1: `check_collision` returns `true` iff some occupied mask cell of the
piece maps to an absolute coordinate outside `[0,WIDTH) × [0,HEIGHT)` or onto
a board cell that is already `Filled`, and returns `false` only when every
occupied mask cell maps to an in-bounds `Empty` board cell.  (The embedding is
a pure function of the board, so it has no side effect on the grid.) -/
theorem check_collision_correct (b : Board) (t : Tetromino) (x y : Int) :
    (b.check_collision t x y = true ↔
      ∃ dy : Fin 4, ∃ dx : Fin 4, t.shape dy dx = 1 ∧
        (¬ inBoundsInt (x + (dx.val : Int)) (y + (dy.val : Int)) ∨
          b.filledAt (x + (dx.val : Int)) (y + (dy.val : Int)) = true)) ∧
    (b.check_collision t x y = false ↔
      ∀ dy : Fin 4, ∀ dx : Fin 4, t.shape dy dx = 1 →
        inBoundsInt (x + (dx.val : Int)) (y + (dy.val : Int)) ∧
          b.filledAt (x + (dx.val : Int)) (y + (dy.val : Int)) = false) := by
  refine ⟨check_collision_iff b t x y, ?_⟩
  rw [← Bool.not_eq_true, check_collision_iff]
  constructor
  · intro hno dy dx hs
    by_cases hin : inBoundsInt (x + (dx.val : Int)) (y + (dy.val : Int))
    · refine ⟨hin, ?_⟩
      by_cases hfil : b.filledAt (x + (dx.val : Int)) (y + (dy.val : Int)) = true
      · exact absurd ⟨dy, dx, hs, Or.inr hfil⟩ hno
      · simpa using hfil
    · exact absurd ⟨dy, dx, hs, Or.inl hin⟩ hno
  · rintro hall ⟨dy, dx, hs, hni | hfil⟩
    · exact hni (hall dy dx hs).1
    · rw [(hall dy dx hs).2] at hfil
      exact Bool.false_ne_true hfil

/-- C2: `fix_tetromino` sets to `Filled` exactly the board cells hit by an
occupied mask cell of the piece (out-of-bounds occupied cells simply hit no
board cell and are skipped; the function is total, so nothing fails), and
every board cell not corresponding to an occupied mask cell keeps its previous
value. -/
theorem fix_tetromino_correct (b : Board) (t : Tetromino) (x y : Int)
    (r : Fin HEIGHT) (c : Fin WIDTH) :
    (b.fix_tetromino t x y).grid r c =
      if ∃ dy : Fin 4, ∃ dx : Fin 4, t.shape dy dx = 1 ∧
          x + (dx.val : Int) = (c.val : Int) ∧ y + (dy.val : Int) = (r.val : Int)
      then Cell.Filled else b.grid r c :=
  fix_tetromino_grid b t x y r c

/-- C4: `rotate_right` produces the mask with `new[col][3-row] = old[row][col]`
for all `row, col` in `[0,4)`; the receiver is read, never written (the
embedding returns a fresh value). -/
theorem rotate_right_correct (t : Tetromino) (row col : Fin 4) :
    (t.rotate_right).shape col ⟨3 - row.val, by omega⟩ = t.shape row col := by
  fin_cases row <;> fin_cases col <;> rfl

/-- C5: each of the 7 canonical masks of `Tetromino::patterns` is unchanged by
four successive clockwise rotations. -/
theorem patterns_rotate_four_id :
    ∀ s ∈ Tetromino.patterns, ∀ a b : Fin 4,
      ((((⟨s⟩ : Tetromino).rotate_right).rotate_right).rotate_right).rotate_right.shape a b
        = s a b := by
  decide

theorem patterns_rotate_four_id_witness :
    shapeI ∈ Tetromino.patterns ∧
    ∀ a b : Fin 4,
      ((((⟨shapeI⟩ : Tetromino).rotate_right).rotate_right).rotate_right).rotate_right.shape a b
        = shapeI a b :=
  ⟨by decide, patterns_rotate_four_id shapeI (by decide)⟩

/-- C8: `occupies` is `true` exactly when the translated coordinate
`(col - x, row - y)` lands inside the 4×4 mask on a cell equal to `1`; in
particular it is `false` (no wraparound, no error) whenever the translated
coordinate is outside `[0,4) × [0,4)`. -/
theorem occupies_correct (t : Tetromino) (x y : Int) (col row : Nat) :
    t.occupies x y col row = true ↔
      ∃ ry : Fin 4, ∃ rx : Fin 4, (row : Int) - y = (ry.val : Int) ∧
        (col : Int) - x = (rx.val : Int) ∧ t.shape ry rx = 1 := by
  simp only [Tetromino.occupies]
  by_cases h : 0 ≤ (col : Int) - x ∧ (col : Int) - x < 4 ∧
      0 ≤ (row : Int) - y ∧ (row : Int) - y < 4
  · rw [dif_pos h, beq_iff_eq]
    constructor
    · intro hsh
      refine ⟨⟨((row : Int) - y).toNat, by omega⟩, ⟨((col : Int) - x).toNat, by omega⟩,
        ?_, ?_, hsh⟩
      · show (row : Int) - y = (((row : Int) - y).toNat : Int)
        omega
      · show (col : Int) - x = (((col : Int) - x).toNat : Int)
        omega
    · rintro ⟨ry, rx, h1, h2, h3⟩
      have hry : ry = (⟨((row : Int) - y).toNat, by omega⟩ : Fin 4) := by
        apply Fin.ext
        show ry.val = ((row : Int) - y).toNat
        omega
      have hrx : rx = (⟨((col : Int) - x).toNat, by omega⟩ : Fin 4) := by
        apply Fin.ext
        show rx.val = ((col : Int) - x).toNat
        omega
      rw [hry, hrx] at h3
      exact h3
  · rw [dif_neg h]
    constructor
    · intro hfalse
      exact absurd hfalse (by simp)
    · rintro ⟨ry, rx, h1, h2, h3⟩
      have hy := ry.isLt
      have hx := rx.isLt
      exact absurd (by omega : 0 ≤ (col : Int) - x ∧ (col : Int) - x < 4 ∧
        0 ≤ (row : Int) - y ∧ (row : Int) - y < 4) h

/-- C3: on a gravity tick, if the piece cannot descend (`check_collision` at
`(x, y+1)`), it is fixed into the board at `(x, y)` and the supplied next
piece spawns at `x = WIDTH/2 - 2 = 3`, `y = 0`, with no collision check at the
spawn position; otherwise only `y` advances by one and the board is
unchanged. -/
theorem gravity_tick_correct (s : GameState) (next : Tetromino) :
    gravityTick s next =
      if s.board.check_collision s.tetromino s.x (s.y + 1) = true then
        { board := s.board.fix_tetromino s.tetromino s.x s.y
          tetromino := next
          x := 3
          y := 0 }
      else
        { board := s.board, tetromino := s.tetromino, x := s.x, y := s.y + 1 } := by
  by_cases h : s.board.check_collision s.tetromino s.x (s.y + 1) = true
  · simp only [gravityTick, h, if_true]
    rfl
  · simp only [gravityTick, h, if_false, Bool.false_eq_true]

/-- The board used to refute C6: a single `Filled` cell at column 3, row 1,
underneath the I-piece anchored at `(3, 0)`. -/
def bOver : Board :=
  ⟨fun r c => if r.val = 1 ∧ c.val = 3 then Cell.Filled else Cell.Empty⟩

/-- C6 is false as stated: with `bOver` and the I-piece at `(3, 0)`,
`check_collision` is `true` (an occupied cell overlaps a `Filled` cell), yet
fixing the piece still leaves every covered absolute cell `Filled` and every
other board cell unchanged — the right side of the claimed `iff` holds while
the left does not. -/
theorem check_fix_iff_counterexample :
    bOver.check_collision tetI 3 0 = true ∧
    allCoveredFilled (bOver.fix_tetromino tetI 3 0) tetI 3 0 = true ∧
    unchangedOutsidePiece bOver (bOver.fix_tetromino tetI 3 0) tetI 3 0 = true := by
  decide

/-- C6 (amended): only the forward direction survives — when `check_collision`
is `false`, fixing the piece makes every absolute cell covered by an occupied
mask cell read `Filled`, and leaves every board cell the piece does not cover
unchanged. -/
theorem fix_after_no_collision (b : Board) (t : Tetromino) (x y : Int)
    (h : b.check_collision t x y = false) :
    (∀ dy : Fin 4, ∀ dx : Fin 4, t.shape dy dx = 1 →
      (b.fix_tetromino t x y).filledAt (x + (dx.val : Int)) (y + (dy.val : Int)) = true) ∧
    (∀ r : Fin HEIGHT, ∀ c : Fin WIDTH,
      (∀ dy : Fin 4, ∀ dx : Fin 4, t.shape dy dx = 1 →
        ¬(x + (dx.val : Int) = (c.val : Int) ∧ y + (dy.val : Int) = (r.val : Int))) →
      (b.fix_tetromino t x y).grid r c = b.grid r c) := by
  have hno : ¬ (b.check_collision t x y = true) := by
    rw [h]
    exact Bool.false_ne_true
  rw [check_collision_iff] at hno
  constructor
  · intro dy dx hs
    have hin : inBoundsInt (x + (dx.val : Int)) (y + (dy.val : Int)) := by
      by_contra hni
      exact hno ⟨dy, dx, hs, Or.inl hni⟩
    rw [Board.filledAt, dif_pos hin, decide_eq_true_eq, fix_tetromino_grid]
    rw [if_pos ?_]
    refine ⟨dy, dx, hs, ?_, ?_⟩
    · show x + (dx.val : Int) = ((x + (dx.val : Int)).toNat : Int)
      have h1 := hin.1
      omega
    · show y + (dy.val : Int) = ((y + (dy.val : Int)).toNat : Int)
      have h1 := hin.2.2.1
      omega
  · intro r c hnc
    rw [fix_tetromino_grid, if_neg ?_]
    rintro ⟨dy, dx, hs, he1, he2⟩
    exact hnc dy dx hs ⟨he1, he2⟩

theorem fix_after_no_collision_witness :
    Board.new.check_collision tetI 3 0 = false ∧
    (Board.new.fix_tetromino tetI 3 0).filledAt 3 1 = true :=
  ⟨by decide,
    (fix_after_no_collision Board.new tetI 3 0 (by decide)).1 1 0 (by decide)⟩

/-- C7 is false as stated: fixing the O-piece of `Tetromino::patterns` at
anchor `(4, 18)` on the empty board leaves the board cell `(4, 18)` `Empty`
(its mask occupies columns 1–2, not 0–1), while cell `(6, 18)` — outside the
claimed 2×2 block — becomes `Filled`. -/
theorem fix_O_counterexample :
    (Board.new.fix_tetromino tetO 4 18).filledAt 4 18 = false ∧
    (Board.new.fix_tetromino tetO 4 18).filledAt 6 18 = true := by
  decide

/-- C7 (amended): fixing the canonical O-piece at `(4, 18)` on the empty board
sets exactly the four board cells `(5,18)`, `(6,18)`, `(5,19)`, `(6,19)` to
`Filled`; every other board cell remains `Empty`. -/
theorem fix_O_at_4_18_cells :
    ∀ r : Fin HEIGHT, ∀ c : Fin WIDTH,
      (Board.new.fix_tetromino tetO 4 18).grid r c = Cell.Filled ↔
        ((c.val = 5 ∨ c.val = 6) ∧ (r.val = 18 ∨ r.val = 19)) := by
  decide

/-- C9: on the freshly constructed board (all cells `Empty`), the canonical
I-piece collides neither at its spawn anchor `(3, 0)` nor at `(3, 18)`, but
does collide at `(-1, 0)` (left wall) and at `(3, 19)` — the first anchor `y`
whose occupied mask row (index 1) maps to board row `20`. -/
theorem board_new_I_scenario :
    (∀ r : Fin HEIGHT, ∀ c : Fin WIDTH, Board.new.grid r c = Cell.Empty) ∧
    Board.new.check_collision tetI 3 0 = false ∧
    Board.new.check_collision tetI (-1) 0 = true ∧
    Board.new.check_collision tetI 3 18 = false ∧
    Board.new.check_collision tetI 3 19 = true := by
  decide

/-- C10: board fill is monotone — `check_collision` and `draw` read the board,
`fix_tetromino` only ever writes `Filled`, so across any sequence of board
operations a `Filled` cell stays `Filled`; no operation clears a cell. -/
theorem filled_monotone (ops : List BoardOp) (b : Board)
    (r : Fin HEIGHT) (c : Fin WIDTH) (h : b.grid r c = Cell.Filled) :
    (ops.foldl applyOp b).grid r c = Cell.Filled := by
  induction ops generalizing b with
  | nil => exact h
  | cons op tl ih =>
    rw [List.foldl_cons]
    apply ih
    cases op with
    | check t x y => exact h
    | draw t x y => exact h
    | fix t x y =>
      show (b.fix_tetromino t x y).grid r c = Cell.Filled
      rw [fix_tetromino_grid]
      split_ifs with hcov
      · rfl
      · exact h

/-- A board with one `Filled` cell at column 0, row 19, used as the concrete
input of the C10 witness. -/
def bCorner : Board :=
  ⟨fun r c => if r.val = 19 ∧ c.val = 0 then Cell.Filled else Cell.Empty⟩

theorem filled_monotone_witness :
    bCorner.grid ⟨19, by decide⟩ ⟨0, by decide⟩ = Cell.Filled ∧
    (([BoardOp.check tetI 3 0, BoardOp.fix tetO 4 16,
        BoardOp.draw tetI 3 0].foldl applyOp bCorner).grid
      ⟨19, by decide⟩ ⟨0, by decide⟩ = Cell.Filled) :=
  ⟨by decide,
    filled_monotone [BoardOp.check tetI 3 0, BoardOp.fix tetO 4 16,
      BoardOp.draw tetI 3 0] bCorner ⟨19, by decide⟩ ⟨0, by decide⟩ (by decide)⟩
